import Mathlib

/-!
Verification of pcap2graylog: the capture-to-log pipeline of `src/pcap2graylog/capture.go`

A shallow embedding of the Go program: the filter builder (`buildPcapFilter`,
`parsePortRange`), the frame classifier (`process`), the delimiter normalizer
(`replaceSOH`), the record builder (`logPacket`), the shipper
(`processFIXPayload`) and the capture loop (`capture`, `main`), followed by the
theorems that settle the claims of the specification against that embedding.

Conventions of the embedding:

* a Go `byte` is a `UInt8`; a Go `string` and a Go `[]byte` are both a `List UInt8`
  (the conversion `string(payload)` copies the bytes unchanged);
* Go `int` / `int64` values are `Int`; the only place where the width matters is
  the range check of `strconv.ParseInt` inside `fmt.Sscanf`, modelled for a 64-bit `int`;
* in-place mutation of a slice is rendered by returning the updated slice;
* writes to standard output and calls of `graylogClient.Send` are rendered as a
  list of events, in program order;
* a run-time panic (index out of range) is an `Except.error`.
-/

namespace Pcap2Graylog

/-! ## Bytes and strings -/

/-- A Go `byte`. -/
abbrev Byte := UInt8

/-- A Go `string` (also used for `[]byte`): a finite sequence of bytes. -/
abbrev GoString := List Byte

/-- The Go conversion `byte(c)` of a character constant. -/
def byte (c : Char) : Byte := UInt8.ofNat c.toNat

/-- The bytes of a Go string literal: the UTF-8 encoding of its text. -/
def lit (s : String) : GoString := s.data.flatMap String.utf8EncodeChar

/-! ## Data model -/

/-- A `time.Time` instant, as whole seconds since the Unix epoch plus the
nanoseconds elapsed within that second (`0 ≤ nsec < 10^9`). -/
structure Time where
  sec : Int
  nsec : Fin 1000000000
  deriving DecidableEq

/-- The method `Time.Unix()`: the number of seconds elapsed since the Unix epoch. -/
def Time.Unix (t : Time) : Int := t.sec

/-- The instant denoted by a `Time`, in seconds since the Unix epoch, as a rational. -/
def Time.toRat (t : Time) : ℚ := (t.sec : ℚ) + (t.nsec.val : ℚ) / 1000000000

/-- The package-level flag variables (lines 19-28), after `flag.Parse()`. -/
structure Flags where
  device : GoString
  snapshotLen : Int
  promiscuous : Bool
  verbose : Bool
  listMode : Bool
  portRange : GoString
  graylogHost : GoString
  graylogPort : Int
  serverName : GoString
  skipHeartbeats : Bool
  deriving DecidableEq

/-- A `client.Gelf` transport client, identified by the aggregator address it was
configured with (`client.Config`). -/
structure Gelf where
  GraylogHost : GoString
  GraylogPort : Int
  deriving DecidableEq

/-- The zero value of `client.Gelf`: the value of a declared but never assigned variable. -/
def Gelf.zero : Gelf := { GraylogHost := [], GraylogPort := 0 }

/-- The mutable package-level variables the pipeline touches (lines 33-35):
`fromPort`, `toPort` and the package-level `graylogClient`. -/
structure Globals where
  fromPort : Int
  toPort : Int
  graylogClient : Gelf
  deriving DecidableEq

/-- The package-level variables at program start: every one holds its zero value. -/
def Globals.init : Globals := { fromPort := 0, toPort := 0, graylogClient := Gelf.zero }

/-- The fields of `gelf.Log` that `logPacket` sets. -/
structure Log where
  Version : GoString
  Host : GoString
  Timestamp : Int
  Level : Int
  ShortMessage : GoString
  deriving DecidableEq

/-- The field `packet.Metadata().CaptureInfo` of a captured frame. -/
structure CaptureInfo where
  Timestamp : Time
  CaptureLength : Int
  Length : Int
  deriving DecidableEq

/-- A `gopacket.Packet` as far as `process` reads it: its capture metadata and
the result of `packet.ApplicationLayer()`, which is `none` for the nil layer and
otherwise carries the bytes of `applicationLayer.Payload()` (a nil slice is the
empty list). -/
structure Packet where
  CaptureInfo : CaptureInfo
  ApplicationLayer : Option (List Byte)
  deriving DecidableEq

/-- The library functions whose result is only passed on: `Time.Format(time.RFC822)`
and `(*gelf.Log).ToJSON()`. -/
structure Extern where
  formatRFC822 : Time → GoString
  ToJSON : Log → GoString

/-- An observable action of the pipeline. -/
inductive Event where
  /-- A write of these bytes to standard output (`fmt.Printf`). -/
  | stdout (text : GoString)
  /-- A call `client.Send(message)`. -/
  | send (client : Gelf) (message : GoString)
  deriving DecidableEq

/-- A run-time panic of the Go program. -/
inductive Panic where
  /-- Failure of the bounds check of an index expression. -/
  | indexOutOfRange (index length : Nat)
  deriving DecidableEq

/-! ## Delimiter normalizer (lines 164-173) -/

/-- Source constant `FIELD_SOH byte = 1`. -/
def FIELD_SOH : Byte := 1

/-- Source constant `FIELD_SEPARATOR byte = byte('|')`. -/
def FIELD_SEPARATOR : Byte := byte '|'

/-- One iteration of the `range` loop of `replaceSOH` at position `index`:
`value` is read from the slice and, when it is `FIELD_SOH`, the slot is overwritten. -/
def replaceSOH.step (message : List Byte) (index : Nat) : List Byte :=
  match message[index]? with
  | some value => if value == FIELD_SOH then message.set index FIELD_SEPARATOR else message
  | none => message

/-- The function `replaceSOH`: the loop `for index, value := range message` runs
over the indices `0 .. len(message)-1` (the length is taken once, at loop entry)
and mutates the slice in place; the mutated slice is returned. -/
def replaceSOH (message : List Byte) : List Byte :=
  (List.range message.length).foldl replaceSOH.step message

/-! ## Record builder (lines 175-183) -/

/-- The function `logPacket`. -/
def logPacket (flags : Flags) (timestamp : Time) (payload : List Byte) : Log :=
  { Version := lit "1.1"
    Host := flags.serverName
    Timestamp := timestamp.Unix
    Level := 3
    ShortMessage := payload }

/-! ## Shipper (lines 141-162) -/

/-- The output of `fmt.Printf("%s: %s\n", a, b)`. -/
def printfLine (a b : GoString) : GoString := a ++ lit ": " ++ b ++ lit "\n"

/-- The function `processFIXPayload`: normalizes the payload, echoes it when
`verbose` is set, builds the record, prints its JSON text and hands that text to
`Send` of the package-level `graylogClient`. The value `Send` returns is not used. -/
def processFIXPayload (E : Extern) (flags : Flags) (g : Globals)
    (timestamp : Time) (payload : List Byte) : List Event :=
  let payload := replaceSOH payload
  let echo :=
    if flags.verbose then [Event.stdout (printfLine (E.formatRFC822 timestamp) payload)] else []
  let logMessage := E.ToJSON (logPacket flags timestamp payload)
  echo ++ [Event.stdout (printfLine (E.formatRFC822 timestamp) logMessage),
           Event.send g.graylogClient logMessage]

/-! ## Frame classifier (lines 115-139) -/

/-- The index expression `payload[i]`, with its bounds check. -/
def index (payload : List Byte) (i : Nat) : Except Panic Byte :=
  match payload[i]? with
  | some b => .ok b
  | none => .error (.indexOutOfRange i payload.length)

/-- The comparison `payload[i] == byte(c)`. -/
def byteIs (payload : List Byte) (i : Nat) (c : Char) : Except Panic Bool :=
  match index payload i with
  | .ok b => .ok (b == byte c)
  | .error e => .error e

/-- Go's short-circuit `a && b`: `b` is evaluated only when `a` is true. -/
def andAlso (a b : Except Panic Bool) : Except Panic Bool :=
  match a with
  | .ok true => b
  | .ok false => .ok false
  | .error e => .error e

/-- The condition of lines 127-132: the test for the `8=FIX.` header. -/
def headerTest (payload : List Byte) : Except Panic Bool :=
  andAlso (byteIs payload 0 '8')
    (andAlso (byteIs payload 1 '=')
      (andAlso (byteIs payload 2 'F')
        (andAlso (byteIs payload 3 'I')
          (andAlso (byteIs payload 4 'X')
            (byteIs payload 5 '.')))))

/-- The function `process`: the events a frame gives rise to, or the panic that
interrupts it. -/
def process (E : Extern) (flags : Flags) (g : Globals) (packet : Packet) :
    Except Panic (List Event) :=
  let captureInfo := packet.CaptureInfo
  if captureInfo.Length > 32 then
    match packet.ApplicationLayer with
    | some payload =>
      if payload.length > 8 then
        match headerTest payload with
        | .ok true => .ok (processFIXPayload E flags g captureInfo.Timestamp payload)
        | .ok false => .ok []
        | .error e => .error e
      else .ok []
    | none => .ok []
  else .ok []

/-- The records shipped by a list of events: the arguments of the `Send` calls, in order. -/
def sent : List Event → List (Gelf × GoString)
  | [] => []
  | Event.stdout _ :: rest => sent rest
  | Event.send client message :: rest => (client, message) :: sent rest


/-! ## Filter builder (lines 51-67)

`parsePortRange` calls `fmt.Sscanf(portRange, "%d-%d", &fromPort, &toPort)` and drops
both results of the call. The scanner of package `fmt` is rendered here for that one
format: it reads the input rune by rune (UTF-8), skips leading white space before each
`%d`, reads an optional sign and a run of digit characters, converts them with
`strconv.ParseInt(tok, 10, 64)`, stores the value through the operand pointer, and stops
at the first failure, leaving the operands not yet stored untouched. Input left over
after the second integer is not an error. -/

/-- The constant `utf8.RuneError`. -/
def RuneError : Nat := 0xFFFD

/-- For the lead byte of a multi-byte UTF-8 encoding: the size of the encoding and the
accepted range of the second byte (tables `first` and `acceptRanges` of `unicode/utf8`). -/
def leadByte (c0 : Nat) : Option (Nat × Nat × Nat) :=
  if 0xC2 ≤ c0 ∧ c0 ≤ 0xDF then some (2, 0x80, 0xBF)
  else if c0 = 0xE0 then some (3, 0xA0, 0xBF)
  else if c0 = 0xED then some (3, 0x80, 0x9F)
  else if 0xE1 ≤ c0 ∧ c0 ≤ 0xEF then some (3, 0x80, 0xBF)
  else if c0 = 0xF0 then some (4, 0x90, 0xBF)
  else if 0xF1 ≤ c0 ∧ c0 ≤ 0xF3 then some (4, 0x80, 0xBF)
  else if c0 = 0xF4 then some (4, 0x80, 0x8F)
  else none

/-- The function `utf8.DecodeRuneInString`: the first rune of the input and its width in
bytes; `(RuneError, 0)` on empty input and `(RuneError, 1)` on an invalid encoding. -/
def DecodeRune : List Byte → Nat × Nat
  | [] => (RuneError, 0)
  | b0 :: rest =>
    let c0 := b0.toNat
    if c0 < 0x80 then (c0, 1)
    else
      match leadByte c0, rest.map UInt8.toNat with
      | some (2, lo, hi), c1 :: _ =>
        if c1 < lo ∨ hi < c1 then (RuneError, 1)
        else ((c0 % 0x20) * 0x40 + c1 % 0x40, 2)
      | some (3, lo, hi), c1 :: c2 :: _ =>
        if c1 < lo ∨ hi < c1 then (RuneError, 1)
        else if c2 < 0x80 ∨ 0xBF < c2 then (RuneError, 1)
        else ((c0 % 0x10) * 0x1000 + (c1 % 0x40) * 0x40 + c2 % 0x40, 3)
      | some (4, lo, hi), c1 :: c2 :: c3 :: _ =>
        if c1 < lo ∨ hi < c1 then (RuneError, 1)
        else if c2 < 0x80 ∨ 0xBF < c2 then (RuneError, 1)
        else if c3 < 0x80 ∨ 0xBF < c3 then (RuneError, 1)
        else ((c0 % 0x08) * 0x40000 + (c1 % 0x40) * 0x1000 + (c2 % 0x40) * 0x40 + c3 % 0x40, 4)
      | _, _ => (RuneError, 1)

/-- The scanner's `getRune`: the next rune and the input after it, `none` at end of input. -/
def readRune (input : List Byte) : Option (Nat × List Byte) :=
  if input.isEmpty then none
  else some ((DecodeRune input).1, input.drop (DecodeRune input).2)

/-- The table `space` of `fmt/scan.go`: the ranges of white-space runes. -/
def space : List (Nat × Nat) :=
  [(0x0009, 0x000d), (0x0020, 0x0020), (0x0085, 0x0085), (0x00a0, 0x00a0),
   (0x1680, 0x1680), (0x2000, 0x200a), (0x2028, 0x2029), (0x202f, 0x202f),
   (0x205f, 0x205f), (0x3000, 0x3000)]

/-- The function `isSpace` of `fmt/scan.go`. -/
def isSpace (r : Nat) : Bool := space.any (fun rng => rng.1 ≤ r && r ≤ rng.2)

/-- The loop of `(*ss).SkipSpace` for `Sscanf` (where a newline is not white space):
`none` is the error "unexpected newline". The first argument bounds the number of
iterations; every iteration consumes at least one byte. -/
def SkipSpace.loop : Nat → List Byte → Option (List Byte)
  | 0, input => some input
  | fuel + 1, input =>
    match readRune input with
    | none => some input
    | some (r, rest) =>
      if r = 0x0A then none
      else if isSpace r then SkipSpace.loop fuel rest
      else some input

/-- The method `(*ss).SkipSpace`. -/
def SkipSpace (input : List Byte) : Option (List Byte) :=
  SkipSpace.loop input.length input

/-- The method `(*ss).accept(ok)`: when the next rune is one of `ok` it is appended to the
token buffer and consumed; otherwise nothing is consumed and the result is `none`. -/
def accept (ok : List Char) (buf : List Nat) (input : List Byte) :
    Option (List Nat × List Byte) :=
  match readRune input with
  | none => none
  | some (r, rest) => if r ∈ ok.map Char.toNat then some (buf ++ [r], rest) else none

/-- The characters `sign` of `fmt/scan.go`. -/
def sign : List Char := ['+', '-']

/-- The characters `decimalDigits` of `fmt/scan.go`, which `getBase` selects for the verb
`%d` (the underscore is accepted for the verb `%v` only). -/
def digits : List Char := ['0', '1', '2', '3', '4', '5', '6', '7', '8', '9']

/-- The loop `for s.accept(digits) {}` of `scanNumber`. The first argument bounds the
number of iterations; every iteration consumes one byte. -/
def scanNumber.loop : Nat → List Nat → List Byte → List Nat × List Byte
  | 0, buf, input => (buf, input)
  | fuel + 1, buf, input =>
    match accept digits buf input with
    | some (buf, rest) => scanNumber.loop fuel buf rest
    | none => (buf, input)

/-- The method `(*ss).scanNumber(digits, false)`: at least one digit character, then as
many as follow; the result is the token and the remaining input. -/
def scanNumber (buf : List Nat) (input : List Byte) : Option (List Nat × List Byte) :=
  match accept digits buf input with
  | none => none
  | some (buf, rest) => some (scanNumber.loop rest.length buf rest)

/-- The function `strconv.ParseUint(s, 10, 64)` without its range check (made by
`ParseInt` below): `none` is a syntax error, raised by an empty string and by any
character that is not a decimal digit. -/
def ParseUint (s : List Nat) : Option Nat :=
  if s.isEmpty then none
  else s.foldl
    (fun acc c =>
      match acc with
      | none => none
      | some n => if 0x30 ≤ c ∧ c ≤ 0x39 then some (n * 10 + (c - 0x30)) else none)
    (some 0)

/-- The function `strconv.ParseInt(s, 10, 64)`: `none` is a syntax or range error. -/
def ParseInt (s : List Nat) : Option Int :=
  match s with
  | [] => none
  | c :: t =>
    let neg := c = 0x2D
    let s := if c = 0x2B ∨ c = 0x2D then t else s
    match ParseUint s with
    | none => none
    | some un =>
      let cutoff := 2 ^ 63
      if ¬ neg ∧ un ≥ cutoff then none
      else if neg ∧ un > cutoff then none
      else some (if neg then -(un : Int) else (un : Int))

/-- The method `(*ss).scanInt('d', 64)` reached through `scanOne` for an `*int` operand,
preceded by the `SkipSpace` that `doScanf` makes before a verb: the scanned value and the
remaining input, or `none` when scanning fails (and the operand is not stored). -/
def scanInt (input : List Byte) : Option (Int × List Byte) :=
  match SkipSpace input with
  | none => none
  | some input =>
    if input.isEmpty then none
    else
      let afterSign := (accept sign [] input).getD ([], input)
      match scanNumber afterSign.1 afterSign.2 with
      | none => none
      | some (tok, rest) =>
        match ParseInt tok with
        | none => none
        | some i => some (i, rest)

/-- The step of `(*ss).advance` for a literal character of the format: the next rune of
the input must be that character. -/
def advanceLiteral (c : Char) (input : List Byte) : Option (List Byte) :=
  match readRune input with
  | none => none
  | some (r, rest) => if r = c.toNat then some rest else none

/-- The outcome of a `Sscanf` call with two `*int` operands: the two results of the call
(`err` is true when the error is not nil) and the values of the operands after it. -/
structure ScanResult where
  n : Nat
  err : Bool
  a : Int
  b : Int
  deriving DecidableEq

/-- The call `fmt.Sscanf(str, "%d-%d", &a, &b)`, for operands holding `a` and `b`. -/
def Sscanf (str : GoString) (a b : Int) : ScanResult :=
  match scanInt str with
  | none => { n := 0, err := true, a := a, b := b }
  | some (x, rest) =>
    match advanceLiteral '-' rest with
    | none => { n := 1, err := true, a := x, b := b }
    | some rest =>
      match scanInt rest with
      | none => { n := 1, err := true, a := x, b := b }
      | some (y, _) => { n := 2, err := false, a := x, b := y }

/-- The function `parsePortRange`: the named results start at zero, `Sscanf` stores into
them, and its own results are dropped. -/
def parsePortRange (portRange : GoString) : Int × Int :=
  let r := Sscanf portRange 0 0
  (r.a, r.b)

/-- The function `buildPcapFilter`: the filter string, and the package-level variables
after the call (`fromPort` and `toPort` are assigned when a port range is given). -/
def buildPcapFilter (flags : Flags) (g : Globals) : GoString × Globals :=
  let result := lit "tcp"
  if flags.portRange.length > 0 then
    let ports := parsePortRange flags.portRange
    let g := { g with fromPort := ports.1, toPort := ports.2 }
    let result := result ++ (lit " and portrange " ++ flags.portRange)
    (result ++ lit " and greater 60", g)
  else
    (result ++ lit " and greater 60", g)

/-! ## Values used to state and instantiate the theorems -/

/-- The effect of the loop body of `replaceSOH` on the byte of one slot. -/
def substSOH (value : Byte) : Byte := if value == FIELD_SOH then FIELD_SEPARATOR else value

/-- The loop of `strconv.Itoa` on a non-negative value: the decimal digits are produced
from the least significant one and put in front of those already produced. The first
argument bounds the number of iterations. -/
def decimalDigits.go : Nat → Nat → List Byte → List Byte
  | 0, _, acc => acc
  | fuel + 1, n, acc =>
    if n / 10 = 0 then UInt8.ofNat (0x30 + n % 10) :: acc
    else decimalDigits.go fuel (n / 10) (UInt8.ofNat (0x30 + n % 10) :: acc)

/-- The decimal form of a natural number, most significant digit first. -/
def decimalDigits (n : Nat) : GoString := decimalDigits.go (n + 1) n []

/-- The decimal form of an integer, as `strconv.Itoa` prints it. -/
def Itoa (i : Int) : GoString :=
  if i < 0 then byte '-' :: decimalDigits i.natAbs else decimalDigits i.natAbs

/-- A decimal integer as the flag's help text writes it (`NNNN`): a non-empty run of the
characters `0` to `9`. -/
def isDecimal (s : GoString) : Bool :=
  !s.isEmpty && s.all (fun b => 0x30 ≤ b.toNat && b.toNat ≤ 0x39)

/-- The input cannot continue a number: it is empty, or it begins with an ASCII character
that is not a decimal digit. -/
def endsNumber (rest : List Byte) : Bool :=
  match rest with
  | [] => true
  | c :: _ => decide (c.toNat < 0x80) && !(decide (0x30 ≤ c.toNat) && decide (c.toNat ≤ 0x39))

/-- The input begins with an ASCII character that can start no integer: it is neither
white space nor a sign nor a decimal digit. -/
def startsNoInteger (s : List Byte) : Bool :=
  match s with
  | [] => false
  | c :: _ =>
    decide (c.toNat < 0x80) && !isSpace c.toNat && !(c.toNat == 0x2B) && !(c.toNat == 0x2D)
      && !(decide (0x30 ≤ c.toNat) && decide (c.toNat ≤ 0x39))

/-- The number that a run of decimal digit characters denotes. -/
def decimalValue (s : GoString) : Nat :=
  s.foldl (fun acc b => acc * 10 + (b.toNat - 0x30)) 0

/-- The flag values when no option is given on the command line (the defaults of lines 19-28). -/
def Flags.default : Flags :=
  { device := lit "\\Device\\NPF_Loopback"
    snapshotLen := 262144
    promiscuous := false
    verbose := false
    listMode := false
    portRange := lit ""
    graylogHost := lit "localhost"
    graylogPort := 9001
    serverName := lit "fix-log"
    skipHeartbeats := true }

/-- One concrete choice of the library functions, for the instances below. -/
def Extern.sample : Extern :=
  { formatRFC822 := fun _ => lit "14 Nov 23 22:13 UTC"
    ToJSON := fun log => lit "short_message=" ++ log.ShortMessage }

/-- A frame of the given wire length and payload, captured at 2023-11-14 22:13:20.25 UTC. -/
def frame (length : Int) (payload : Option (List Byte)) : Packet :=
  { CaptureInfo :=
      { Timestamp := { sec := 1700000000, nsec := 250000000 }
        CaptureLength := length
        Length := length }
    ApplicationLayer := payload }

/-! ## Capture loop and program entry (lines 41-49 and 89-113) -/

/-- The argument `client.Config{GraylogHost: ..., GraylogPort: ...}` of `client.New`. -/
structure client.Config where
  GraylogHost : GoString
  GraylogPort : Int
  deriving DecidableEq

/-- The call `client.New(config)`: the client configured with that aggregator address. -/
def client.New (config : client.Config) : Gelf :=
  { GraylogHost := config.GraylogHost, GraylogPort := config.GraylogPort }

/-- The capture session as the capture facility presents it to `capture`: either
`pcap.OpenLive` or `SetBPFFilter` returns the error `err`, or the handle is live and
`packetSource.Packets()` yields these frames, in order, until the channel is closed. -/
inductive Session where
  | failed (err : GoString)
  | live (packets : List Packet)

/-- How a call of `capture` ends. -/
inductive Exit where
  /-- The packet channel was closed and the `range` loop ended. -/
  | returned
  /-- The statement `panic(err)` of line 103 or line 105. -/
  | setupPanic (err : GoString)
  /-- A panic raised while a frame was being processed. -/
  | framePanic (p : Panic)
  deriving DecidableEq

/-- The loop `for packet := range packetSource.Packets() { process(packet) }` of lines
109-111: the frames are processed one after the other with the same package-level
variables (`process` assigns none of them); a panic ends the loop. The result is the events
in program order and the panic that interrupted the loop, if any. -/
def captureLoop (E : Extern) (flags : Flags) (g : Globals) :
    List Packet → List Event × Option Panic
  | [] => ([], none)
  | packet :: rest =>
    match process E flags g packet with
    | .ok events =>
      ((events ++ (captureLoop E flags g rest).1), (captureLoop E flags g rest).2)
    | .error p => ([], some p)

/-- The local variable `graylogClient` that `capture` declares at line 92 with `:=` and
closes on return: the client built from the `graylog-host` and `graylog-port` flags. The
declaration is local to `capture`; the package-level variable of the same name (line 35,
`Globals.graylogClient`) is not assigned by it. -/
def capture.graylogClient (flags : Flags) : Gelf :=
  client.New { GraylogHost := flags.graylogHost, GraylogPort := flags.graylogPort }

/-- The function `capture`: prints the two banner lines, then panics when the session
could not be set up and otherwise runs the loop over the frames. The deferred `Close`
calls (of the handle and of the local `graylogClient`) leave no event. -/
def capture (E : Extern) (flags : Flags) (g : Globals) (filter : GoString)
    (session : Session) : List Event × Exit :=
  let banner :=
    [Event.stdout (lit "Caprure from interface: \"" ++ flags.device
        ++ lit "\" using filter: \"" ++ filter ++ lit "\"\n"),
     Event.stdout (lit "Destination Graylog: \"" ++ flags.graylogHost ++ lit ":"
        ++ Itoa flags.graylogPort ++ lit "\"\n")]
  match session with
  | .failed err => (banner, Exit.setupPanic err)
  | .live packets =>
    match captureLoop E flags g packets with
    | (events, none) => (banner ++ events, Exit.returned)
    | (events, some p) => (banner ++ events, Exit.framePanic p)

/-- The function `main` when `list-interfaces` is not set: `capture(buildPcapFilter())`,
started with every package-level variable at its zero value. With `list-interfaces` set
the program only lists the devices (`findDevices`, not part of the pipeline): `none`. -/
def main (E : Extern) (flags : Flags) (session : Session) : Option (List Event × Exit) :=
  if flags.listMode then none
  else
    some (capture E flags (buildPcapFilter flags Globals.init).2
      (buildPcapFilter flags Globals.init).1 session)

/-! ### The pipeline under a transport

`Send` belongs to a library outside the repository. The definitions below give the
pipeline again with the transport as an input, so that what the program does with the
outcome of `Send` is visible: line 161 is the expression statement
`graylogClient.Send(logMessage)`, whatever the call returns is not bound, and the program
contains no `recover`. -/

/-- A frame qualifies when its wire length is above 32, it has a payload, the payload has
more than 8 bytes and the payload begins with `8=FIX.`. -/
def qualifies (packet : Packet) : Bool :=
  match packet.ApplicationLayer with
  | some p =>
    decide (packet.CaptureInfo.Length > 32) && decide (p.length > 8)
      && decide (lit "8=FIX." <+: p)
  | none => false

/-- The record of a frame: the one `logPacket` builds from the capture timestamp and the
normalized payload. -/
def recordOf (flags : Flags) (packet : Packet) : Log :=
  logPacket flags packet.CaptureInfo.Timestamp
    (replaceSOH (packet.ApplicationLayer.getD []))

/-- The payload of scenario A, a FIX heartbeat (message type `35=0`). -/
def heartbeat : List Byte := lit "8=FIX.4.2\x019=5\x0135=0\x01"

/-! ## Lemmas -/

theorem replaceSOH_loop (message pre : List Byte) :
    (List.range' pre.length message.length).foldl replaceSOH.step (pre ++ message)
      = pre ++ message.map substSOH := by
  induction message generalizing pre with
  | nil => simp
  | cons v tl ih =>
    have h := ih (pre ++ [substSOH v])
    simp only [List.length_append, List.length_singleton, List.append_assoc,
      List.singleton_append] at h
    simp only [List.length_cons, List.range'_succ, List.foldl_cons, List.map_cons]
    have hs : replaceSOH.step (pre ++ v :: tl) pre.length = pre ++ substSOH v :: tl := by
      have hg : (pre ++ v :: tl)[pre.length]? = some v := by
        rw [List.getElem?_append_right (Nat.le_refl _)]
        simp
      unfold replaceSOH.step substSOH
      rw [hg]
      by_cases hv : v = FIELD_SOH <;> simp [hv]
    rw [hs, h]

theorem replaceSOH_eq_map (message : List Byte) :
    replaceSOH message = message.map substSOH := by
  have h := replaceSOH_loop message []
  simpa [replaceSOH, List.range_eq_range'] using h

theorem andAlso_ok (x y : Bool) : andAlso (.ok x) (.ok y) = .ok (x && y) := by
  cases x <;> rfl

theorem headerTest_cons (b0 b1 b2 b3 b4 b5 : Byte) (rest : List Byte) :
    headerTest (b0 :: b1 :: b2 :: b3 :: b4 :: b5 :: rest)
      = .ok (b0 == byte '8' && (b1 == byte '=' && (b2 == byte 'F' && (b3 == byte 'I'
              && (b4 == byte 'X' && b5 == byte '.'))))) := by
  simp only [headerTest, byteIs, index, List.getElem?_cons_zero, List.getElem?_cons_succ,
    andAlso_ok]

theorem headerTest_of_header (rest : List Byte) :
    headerTest (lit "8=FIX." ++ rest) = .ok true := by
  have h : lit "8=FIX." ++ rest
      = byte '8' :: byte '=' :: byte 'F' :: byte 'I' :: byte 'X' :: byte '.' :: rest := by
    have : lit "8=FIX." = [byte '8', byte '=', byte 'F', byte 'I', byte 'X', byte '.'] := by decide
    rw [this]; rfl
  rw [h, headerTest_cons]
  simp

theorem Time.floor_toRat (t : Time) : ⌊t.toRat⌋ = t.sec := by
  rw [Int.floor_eq_iff]
  unfold Time.toRat
  have h1 : (0 : ℚ) ≤ (t.nsec.val : ℚ) / 1000000000 := by positivity
  have h2 : (t.nsec.val : ℚ) / 1000000000 < 1 := by
    rw [div_lt_one (by norm_num)]
    exact_mod_cast t.nsec.isLt
  constructor <;> linarith

theorem sent_processFIXPayload (E : Extern) (flags : Flags) (g : Globals) (timestamp : Time)
    (payload : List Byte) :
    sent (processFIXPayload E flags g timestamp payload)
      = [(g.graylogClient, E.ToJSON (logPacket flags timestamp (replaceSOH payload)))] := by
  unfold processFIXPayload
  by_cases hv : flags.verbose <;> simp [hv, sent]

theorem processFIXPayload_ne_nil (E : Extern) (flags : Flags) (g : Globals) (timestamp : Time)
    (payload : List Byte) : processFIXPayload E flags g timestamp payload ≠ [] := by
  intro h
  have hs := sent_processFIXPayload E flags g timestamp payload
  rw [h] at hs
  simp [sent] at hs

theorem lit_header :
    lit "8=FIX." = [byte '8', byte '=', byte 'F', byte 'I', byte 'X', byte '.'] := by decide

theorem headerTest_of_mismatch (p : List Byte) (hlen : 8 < p.length)
    (h : ∃ i, i < 6 ∧ p[i]? ≠ (lit "8=FIX.")[i]?) : headerTest p = .ok false := by
  rcases p with _ | ⟨b0, _ | ⟨b1, _ | ⟨b2, _ | ⟨b3, _ | ⟨b4, _ | ⟨b5, rest⟩⟩⟩⟩⟩⟩ <;>
    simp at hlen
  rw [headerTest_cons]
  obtain ⟨i, hi, hne⟩ := h
  rw [lit_header] at hne
  interval_cases i <;> simp at hne <;> simp [hne]

theorem process_of_header (E : Extern) (flags : Flags) (g : Globals) (packet : Packet)
    (p : List Byte) (hlen : packet.CaptureInfo.Length > 32)
    (hp : packet.ApplicationLayer = some p) (h8 : p.length > 8) (hh : lit "8=FIX." <+: p) :
    process E flags g packet
      = .ok (processFIXPayload E flags g packet.CaptureInfo.Timestamp p) := by
  obtain ⟨rest, rfl⟩ := hh
  unfold process
  simp only [hlen, hp, h8, if_true, headerTest_of_header]

theorem buildPcapFilter_fst (flags : Flags) (g : Globals) :
    (buildPcapFilter flags g).1 =
      if flags.portRange = [] then lit "tcp and greater 60"
      else lit "tcp and portrange " ++ flags.portRange ++ lit " and greater 60" := by
  have h1 : lit "tcp" ++ lit " and greater 60" = lit "tcp and greater 60" := by decide
  have h2 : lit "tcp and portrange " = lit "tcp" ++ lit " and portrange " := by decide
  unfold buildPcapFilter
  by_cases hs : flags.portRange = []
  · simp [hs, h1]
  · have hpos : flags.portRange.length > 0 := List.length_pos.mpr hs
    simp [hs, hpos, h2, List.append_assoc]

theorem buildPcapFilter_snd (flags : Flags) (g : Globals) (hs : flags.portRange ≠ []) :
    (buildPcapFilter flags g).2 =
      { g with fromPort := (parsePortRange flags.portRange).1
               toPort := (parsePortRange flags.portRange).2 } := by
  have hpos : flags.portRange.length > 0 := List.length_pos.mpr hs
  unfold buildPcapFilter
  simp [hpos]

/-! ### The iteration bounds of the scanner loops are never reached early -/

theorem DecodeRune_width_pos (b0 : Byte) (rest : List Byte) :
    1 ≤ (DecodeRune (b0 :: rest)).2 := by
  unfold DecodeRune
  simp only
  split
  · simp
  · split <;> (try split_ifs) <;> simp

theorem readRune_length (input rest : List Byte) (r : Nat)
    (h : readRune input = some (r, rest)) : rest.length < input.length := by
  cases input with
  | nil => simp [readRune] at h
  | cons b0 t =>
    have hw := DecodeRune_width_pos b0 t
    simp only [readRune, List.isEmpty_cons, Bool.false_eq_true, if_false, Option.some.injEq,
      Prod.mk.injEq] at h
    rw [← h.2, List.length_drop, List.length_cons]
    omega

theorem SkipSpace_loop_bound (f1 : Nat) :
    ∀ (f2 : Nat) (input : List Byte), input.length ≤ f1 → input.length ≤ f2 →
      SkipSpace.loop f1 input = SkipSpace.loop f2 input := by
  induction f1 with
  | zero =>
    intro f2 input h1 _
    have hnil : input = [] := List.length_eq_zero.mp (Nat.le_zero.mp h1)
    subst hnil
    cases f2 <;> simp [SkipSpace.loop, readRune]
  | succ f1 ih =>
    intro f2 input h1 h2
    cases f2 with
    | zero =>
      have hnil : input = [] := List.length_eq_zero.mp (Nat.le_zero.mp h2)
      subst hnil
      simp [SkipSpace.loop, readRune]
    | succ f2 =>
      unfold SkipSpace.loop
      cases hr : readRune input with
      | none => rfl
      | some p =>
        obtain ⟨r, rest⟩ := p
        have hlen := readRune_length input rest r hr
        simp only
        rw [ih f2 rest (by omega) (by omega)]

theorem accept_length (ok : List Char) (buf buf2 : List Nat) (input rest : List Byte)
    (h : accept ok buf input = some (buf2, rest)) : rest.length < input.length := by
  unfold accept at h
  cases hr : readRune input with
  | none => simp [hr] at h
  | some p =>
    obtain ⟨r, t⟩ := p
    simp only [hr] at h
    split_ifs at h
    simp only [Option.some.injEq, Prod.mk.injEq] at h
    rw [← h.2]
    exact readRune_length input t r hr

theorem scanNumber_loop_bound (f1 : Nat) :
    ∀ (f2 : Nat) (buf : List Nat) (input : List Byte), input.length ≤ f1 →
      input.length ≤ f2 → scanNumber.loop f1 buf input = scanNumber.loop f2 buf input := by
  induction f1 with
  | zero =>
    intro f2 buf input h1 _
    have hnil : input = [] := List.length_eq_zero.mp (Nat.le_zero.mp h1)
    subst hnil
    cases f2 <;> simp [scanNumber.loop, accept, readRune]
  | succ f1 ih =>
    intro f2 buf input h1 h2
    cases f2 with
    | zero =>
      have hnil : input = [] := List.length_eq_zero.mp (Nat.le_zero.mp h2)
      subst hnil
      simp [scanNumber.loop, accept, readRune]
    | succ f2 =>
      unfold scanNumber.loop
      cases ha : accept digits buf input with
      | none => rfl
      | some p =>
        obtain ⟨buf2, rest⟩ := p
        have hlen := accept_length digits buf buf2 input rest ha
        simp only
        rw [ih f2 buf2 rest (by omega) (by omega)]

/-! ### The scanner on decimal numerals -/

theorem readRune_ascii (b : Byte) (t : List Byte) (h : b.toNat < 0x80) :
    readRune (b :: t) = some (b.toNat, t) := by
  simp [readRune, DecodeRune, h]

theorem digits_codes :
    digits.map Char.toNat = [48, 49, 50, 51, 52, 53, 54, 55, 56, 57] := by decide

theorem accept_digit (buf : List Nat) (b : Byte) (t : List Byte)
    (h : 0x30 ≤ b.toNat ∧ b.toNat ≤ 0x39) :
    accept digits buf (b :: t) = some (buf ++ [b.toNat], t) := by
  have hm : b.toNat ∈ digits.map Char.toNat := by
    rw [digits_codes]
    obtain ⟨h1, h2⟩ := h
    generalize b.toNat = n at h1 h2
    interval_cases n <;> simp
  unfold accept
  rw [readRune_ascii b t (by omega)]
  simp [hm]

theorem byte_dash : (byte '-').toNat = 0x2D := by decide

theorem endsNumber_dash (t : List Byte) : endsNumber (byte '-' :: t) = true := by
  simp [endsNumber, byte_dash]

theorem accept_digits_stop (buf : List Nat) (rest : List Byte)
    (h : endsNumber rest = true) : accept digits buf rest = none := by
  cases rest with
  | nil => rfl
  | cons c t =>
    simp only [endsNumber, Bool.and_eq_true, decide_eq_true_eq, Bool.not_eq_true',
      Bool.and_eq_false_imp] at h
    obtain ⟨hascii, hnd⟩ := h
    unfold accept
    rw [readRune_ascii c t hascii, digits_codes]
    have hmem : ¬ (c.toNat ∈ [48, 49, 50, 51, 52, 53, 54, 55, 56, 57]) := by
      simp only [List.mem_cons, List.mem_singleton, List.not_mem_nil, or_false]
      intro hc
      have h1 : 0x30 ≤ c.toNat := by omega
      have h2 := hnd h1
      simp at h2
      omega
    simp only [hmem, if_false]

theorem scanNumber_loop_digits (ds : List Byte) :
    ∀ (fuel : Nat) (buf : List Nat) (rest : List Byte),
      (∀ b ∈ ds, 0x30 ≤ b.toNat ∧ b.toNat ≤ 0x39) →
      endsNumber rest = true → ds.length ≤ fuel →
      scanNumber.loop fuel buf (ds ++ rest) = (buf ++ ds.map UInt8.toNat, rest) := by
  induction ds with
  | nil =>
    intro fuel buf rest _ hrest _
    cases fuel with
    | zero => simp [scanNumber.loop]
    | succ f => simp [scanNumber.loop, accept_digits_stop buf rest hrest]
  | cons d ds ih =>
    intro fuel buf rest hds hrest hfuel
    cases fuel with
    | zero => simp at hfuel
    | succ f =>
      have hd := hds d (List.mem_cons_self _ _)
      have hrec := ih f (buf ++ [d.toNat]) rest
        (fun b hb => hds b (List.mem_cons_of_mem _ hb)) hrest
        (by simpa using hfuel)
      simp only [List.cons_append, scanNumber.loop, accept_digit buf d (ds ++ rest) hd, hrec]
      simp

theorem scanNumber_digits (buf : List Nat) (d : Byte) (ds rest : List Byte)
    (hds : ∀ b ∈ d :: ds, 0x30 ≤ b.toNat ∧ b.toNat ≤ 0x39)
    (hrest : endsNumber rest = true) :
    scanNumber buf (d :: ds ++ rest) = some (buf ++ (d :: ds).map UInt8.toNat, rest) := by
  have hd := hds d (List.mem_cons_self _ _)
  have hloop := scanNumber_loop_digits ds (ds ++ rest).length (buf ++ [d.toNat]) rest
    (fun b hb => hds b (List.mem_cons_of_mem _ hb)) hrest (by simp)
  simp only [List.cons_append, scanNumber, accept_digit buf d (ds ++ rest) hd, hloop]
  simp

theorem ParseUint_fold (ds : List Byte) :
    ∀ acc : Nat, (∀ b ∈ ds, 0x30 ≤ b.toNat ∧ b.toNat ≤ 0x39) →
      (ds.map UInt8.toNat).foldl
        (fun acc c =>
          match acc with
          | none => none
          | some n => if 0x30 ≤ c ∧ c ≤ 0x39 then some (n * 10 + (c - 0x30)) else none)
        (some acc)
      = some (ds.foldl (fun acc b => acc * 10 + (b.toNat - 0x30)) acc) := by
  induction ds with
  | nil => intro acc _; rfl
  | cons d ds ih =>
    intro acc hds
    have hd := hds d (List.mem_cons_self _ _)
    simp only [List.map_cons, List.foldl_cons, hd, and_self, if_true]
    exact ih _ (fun b hb => hds b (List.mem_cons_of_mem _ hb))

theorem ParseInt_digits (d : Byte) (ds : List Byte)
    (hds : ∀ b ∈ d :: ds, 0x30 ≤ b.toNat ∧ b.toNat ≤ 0x39)
    (hv : decimalValue (d :: ds) < 2 ^ 63) :
    ParseInt ((d :: ds).map UInt8.toNat) = some (decimalValue (d :: ds) : Int) := by
  have hd := hds d (List.mem_cons_self _ _)
  have hu : ParseUint ((d :: ds).map UInt8.toNat) = some (decimalValue (d :: ds)) := by
    unfold ParseUint decimalValue
    simpa using ParseUint_fold (d :: ds) 0 hds
  have h1 : ¬ (d.toNat = 0x2D) := by omega
  have h3 : ¬ (decimalValue (d :: ds) ≥ 2 ^ 63) := by omega
  have h4 : ¬ (d.toNat = 0x2B) := by omega
  unfold ParseInt
  simp only [List.map_cons] at hu ⊢
  simp only [h1, h4, hu, or_self, if_false, false_and, not_false_eq_true, true_and, h3]


theorem isSpace_digit (n : Nat) (h : 0x30 ≤ n ∧ n ≤ 0x39) : isSpace n = false := by
  obtain ⟨h1, h2⟩ := h
  interval_cases n <;> decide

theorem SkipSpace_digit (d : Byte) (t : List Byte) (hd : 0x30 ≤ d.toNat ∧ d.toNat ≤ 0x39) :
    SkipSpace (d :: t) = some (d :: t) := by
  have hnl : ¬ (d.toNat = 0x0A) := by omega
  simp [SkipSpace, SkipSpace.loop, readRune_ascii d t (by omega), hnl, isSpace_digit _ hd]

theorem accept_sign_digit (d : Byte) (t : List Byte) (hd : 0x30 ≤ d.toNat ∧ d.toNat ≤ 0x39) :
    accept sign [] (d :: t) = none := by
  have hs : sign.map Char.toNat = [0x2B, 0x2D] := by decide
  have h1 : ¬ (d.toNat = 0x2D) := by omega
  have h4 : ¬ (d.toNat = 0x2B) := by omega
  unfold accept
  rw [readRune_ascii d t (by omega), hs]
  simp [h1, h4]

theorem isDecimal_iff (s : GoString) :
    isDecimal s = true ↔ s ≠ [] ∧ ∀ b ∈ s, 0x30 ≤ b.toNat ∧ b.toNat ≤ 0x39 := by
  cases s <;> simp [isDecimal]

theorem scanInt_decimal (N rest : List Byte) (hN : isDecimal N = true)
    (hrest : endsNumber rest = true) (hv : decimalValue N < 2 ^ 63) :
    scanInt (N ++ rest) = some ((decimalValue N : Int), rest) := by
  obtain ⟨hne, hds⟩ := (isDecimal_iff N).mp hN
  cases N with
  | nil => exact absurd rfl hne
  | cons d ds =>
    have hd := hds d (List.mem_cons_self _ _)
    unfold scanInt
    rw [List.cons_append, SkipSpace_digit d _ hd]
    simp only [List.isEmpty_cons, accept_sign_digit d _ hd, Option.getD_none]
    rw [← List.cons_append, scanNumber_digits [] d ds rest hds hrest]
    simp only [List.nil_append, ParseInt_digits d ds hds hv]
    simp

theorem scanInt_of_startsNoInteger (s : List Byte) (h : startsNoInteger s = true) :
    scanInt s = none := by
  cases s with
  | nil => simp [startsNoInteger] at h
  | cons c t =>
    simp only [startsNoInteger, Bool.and_eq_true, decide_eq_true_eq, Bool.not_eq_true',
      beq_eq_false_iff_ne, ne_eq, Bool.and_eq_false_imp] at h
    obtain ⟨⟨⟨⟨hascii, hsp⟩, hplus⟩, hminus⟩, hnd⟩ := h
    have hnl : ¬ (c.toNat = 0x0A) := by
      intro hc
      rw [hc] at hsp
      exact absurd hsp (by decide)
    have hskip : SkipSpace (c :: t) = some (c :: t) := by
      simp [SkipSpace, SkipSpace.loop, readRune_ascii c t hascii, hnl, hsp]
    have hsign : accept sign [] (c :: t) = none := by
      have hs : sign.map Char.toNat = [0x2B, 0x2D] := by decide
      unfold accept
      rw [readRune_ascii c t hascii, hs]
      simp [hplus, hminus]
    have hdig : accept digits [] (c :: t) = none := by
      apply accept_digits_stop
      simp only [endsNumber, Bool.and_eq_true, decide_eq_true_eq, Bool.not_eq_true',
        Bool.and_eq_false_imp]
      exact ⟨hascii, hnd⟩
    unfold scanInt
    rw [hskip]
    simp only [List.isEmpty_cons, hsign, Option.getD_none, scanNumber, hdig]
    simp

theorem Sscanf_digit_runs :
    Sscanf (lit "9_000-9100") 0 0 = { n := 1, err := true, a := 9, b := 0 } ∧
    Sscanf (lit "9000-9_1") 0 0 = { n := 2, err := false, a := 9000, b := 9 } ∧
    Sscanf (lit "9000-9100") 0 0 = { n := 2, err := false, a := 9000, b := 9100 } := by
  decide

theorem advanceLiteral_dash (t : List Byte) : advanceLiteral '-' (byte '-' :: t) = some t := by
  unfold advanceLiteral
  rw [readRune_ascii _ t (by rw [byte_dash]; norm_num), byte_dash]
  simp

theorem Sscanf_decimal (N M : GoString) (x y : Int)
    (hN : isDecimal N = true) (hM : isDecimal M = true)
    (hvN : decimalValue N < 2 ^ 63) (hvM : decimalValue M < 2 ^ 63) :
    Sscanf (N ++ lit "-" ++ M) x y
      = { n := 2, err := false, a := decimalValue N, b := decimalValue M } := by
  have hl : lit "-" = [byte '-'] := by decide
  have h1 : N ++ lit "-" ++ M = N ++ (byte '-' :: M) := by rw [hl]; simp
  have hs1 := scanInt_decimal N (byte '-' :: M) hN (endsNumber_dash M) hvN
  have hs2 := scanInt_decimal M [] hM rfl hvM
  rw [List.append_nil] at hs2
  unfold Sscanf
  rw [h1, hs1]
  simp only [advanceLiteral_dash, hs2]


theorem digit_toNat (n : Nat) : (UInt8.ofNat (0x30 + n % 10)).toNat = 0x30 + n % 10 := by
  have h : n % 10 < 10 := Nat.mod_lt _ (by norm_num)
  simp [UInt8.toNat, UInt8.ofNat]
  omega

theorem decimalValue_append (s : GoString) (b : Byte) :
    decimalValue (s ++ [b]) = decimalValue s * 10 + (b.toNat - 0x30) := by
  simp [decimalValue, List.foldl_append]

theorem decimalDigits_go_spec (fuel : Nat) :
    ∀ (n : Nat) (acc : List Byte), n < fuel →
      ∃ ds, decimalDigits.go fuel n acc = ds ++ acc ∧ ds ≠ [] ∧
        (∀ b ∈ ds, 0x30 ≤ b.toNat ∧ b.toNat ≤ 0x39) ∧ decimalValue ds = n := by
  induction fuel with
  | zero => intro n acc h; omega
  | succ f ih =>
    intro n acc hn
    have hlt : n % 10 < 10 := Nat.mod_lt _ (by norm_num)
    unfold decimalDigits.go
    by_cases h0 : n / 10 = 0
    · refine ⟨[UInt8.ofNat (0x30 + n % 10)], by simp [h0], by simp, ?_, ?_⟩
      · intro b hb
        simp only [List.mem_singleton] at hb
        rw [hb, digit_toNat]
        omega
      · simp only [decimalValue, List.foldl_cons, List.foldl_nil, digit_toNat]
        omega
    · obtain ⟨ds, hgo, _, hdig, hval⟩ :=
        ih (n / 10) (UInt8.ofNat (0x30 + n % 10) :: acc) (by omega)
      refine ⟨ds ++ [UInt8.ofNat (0x30 + n % 10)], by simp [h0, hgo], by simp, ?_, ?_⟩
      · intro b hb
        rcases List.mem_append.mp hb with hb | hb
        · exact hdig b hb
        · simp only [List.mem_singleton] at hb
          rw [hb, digit_toNat]
          omega
      · rw [decimalValue_append, hval, digit_toNat]
        omega

theorem decimalDigits_spec (n : Nat) :
    isDecimal (decimalDigits n) = true ∧ decimalValue (decimalDigits n) = n := by
  obtain ⟨ds, hgo, hne, hdig, hval⟩ := decimalDigits_go_spec (n + 1) n [] (by omega)
  unfold decimalDigits
  rw [hgo, List.append_nil]
  exact ⟨(isDecimal_iff ds).mpr ⟨hne, hdig⟩, hval⟩

theorem Itoa_natCast (n : Nat) : Itoa (n : Int) = decimalDigits n := by
  simp [Itoa]

theorem parsePortRange_Itoa (a b : Nat) (ha : a < 2 ^ 63) (hb : b < 2 ^ 63) :
    parsePortRange (Itoa (a : Int) ++ lit "-" ++ Itoa (b : Int)) = ((a : Int), (b : Int)) := by
  have hA := decimalDigits_spec a
  have hB := decimalDigits_spec b
  unfold parsePortRange
  rw [Itoa_natCast, Itoa_natCast,
    Sscanf_decimal _ _ 0 0 hA.1 hB.1 (by rw [hA.2]; exact ha) (by rw [hB.2]; exact hb),
    hA.2, hB.2]

/-! ### The classifier and the capture loop in closed form -/

theorem headerTest_eq_decide (p : List Byte) (hlen : 8 < p.length) :
    headerTest p = .ok (decide (lit "8=FIX." <+: p)) := by
  rcases p with _ | ⟨b0, _ | ⟨b1, _ | ⟨b2, _ | ⟨b3, _ | ⟨b4, _ | ⟨b5, rest⟩⟩⟩⟩⟩⟩ <;>
    simp at hlen
  rw [headerTest_cons, lit_header]
  congr 1
  simp only [List.cons_prefix_cons, List.nil_prefix, and_true, Bool.decide_and,
    beq_iff_eq, Bool.decide_eq_true, eq_comm (a := byte _)]
  rfl

theorem process_eq (E : Extern) (flags : Flags) (g : Globals) (packet : Packet) :
    process E flags g packet
      = .ok (if qualifies packet = true then
              processFIXPayload E flags g packet.CaptureInfo.Timestamp
                (packet.ApplicationLayer.getD [])
             else []) := by
  unfold process qualifies
  cases hp : packet.ApplicationLayer with
  | none => simp
  | some p =>
    by_cases hlen : packet.CaptureInfo.Length > 32
    · by_cases h8 : p.length > 8
      · simp only [hlen, h8, if_true, headerTest_eq_decide p h8, decide_True, Bool.true_and,
          Option.getD_some]
        by_cases hh : lit "8=FIX." <+: p <;> simp [hh]
      · simp [hlen, h8]
    · simp [hlen]

theorem sent_append (a b : List Event) : sent (a ++ b) = sent a ++ sent b := by
  induction a with
  | nil => rfl
  | cons e rest ih => cases e <;> simp [sent, ih]

theorem captureLoop_eq (E : Extern) (flags : Flags) (g : Globals) (packets : List Packet) :
    captureLoop E flags g packets
      = (packets.flatMap (fun packet =>
          if qualifies packet = true then
            processFIXPayload E flags g packet.CaptureInfo.Timestamp
              (packet.ApplicationLayer.getD [])
          else []), none) := by
  induction packets with
  | nil => rfl
  | cons packet rest ih =>
    unfold captureLoop
    rw [process_eq, ih]
    simp

theorem sent_captureLoop (E : Extern) (flags : Flags) (g : Globals) (packets : List Packet) :
    sent (captureLoop E flags g packets).1
      = (packets.filter (fun packet => qualifies packet)).map
          (fun packet => (g.graylogClient, E.ToJSON (recordOf flags packet))) := by
  rw [captureLoop_eq]
  induction packets with
  | nil => rfl
  | cons packet rest ih =>
    simp only [List.flatMap_cons, sent_append, ih]
    by_cases hq : qualifies packet = true
    · simp [hq, sent_processFIXPayload, recordOf]
    · simp [hq, sent]

theorem sent_capture_live (E : Extern) (flags : Flags) (g : Globals) (filter : GoString)
    (packets : List Packet) :
    capture E flags g filter (Session.live packets)
      = ([Event.stdout (lit "Caprure from interface: \"" ++ flags.device
            ++ lit "\" using filter: \"" ++ filter ++ lit "\"\n"),
          Event.stdout (lit "Destination Graylog: \"" ++ flags.graylogHost ++ lit ":"
            ++ Itoa flags.graylogPort ++ lit "\"\n")]
          ++ (captureLoop E flags g packets).1, Exit.returned) ∧
    sent (capture E flags g filter (Session.live packets)).1
      = sent (captureLoop E flags g packets).1 := by
  have h : capture E flags g filter (Session.live packets)
      = ([Event.stdout (lit "Caprure from interface: \"" ++ flags.device
            ++ lit "\" using filter: \"" ++ filter ++ lit "\"\n"),
          Event.stdout (lit "Destination Graylog: \"" ++ flags.graylogHost ++ lit ":"
            ++ Itoa flags.graylogPort ++ lit "\"\n")]
          ++ (captureLoop E flags g packets).1, Exit.returned) := by
    unfold capture
    simp only [captureLoop_eq]
  refine ⟨h, ?_⟩
  rw [h]
  simp [sent]

theorem buildPcapFilter_graylogClient (flags : Flags) (g : Globals) :
    (buildPcapFilter flags g).2.graylogClient = g.graylogClient := by
  unfold buildPcapFilter
  split <;> rfl

/-! ### The pipeline under a transport, in closed form -/

theorem substSOH_ne_SOH (b : Byte) : substSOH b ≠ 0x01 := by
  unfold substSOH
  by_cases h : b = FIELD_SOH
  · simp only [h, beq_self_eq_true, if_true]
    decide
  · have hb : (b == FIELD_SOH) = false := by simpa using h
    simp only [hb, Bool.false_eq_true, if_false]
    exact h

theorem substSOH_idem (b : Byte) : substSOH (substSOH b) = substSOH b := by
  have h := substSOH_ne_SOH b
  have h1 : FIELD_SOH = 0x01 := rfl
  generalize substSOH b = c at h
  simp [substSOH, h1, h]

theorem replaceSOH_header (rest : List Byte) :
    replaceSOH (lit "8=FIX." ++ rest) = lit "8=FIX." ++ replaceSOH rest := by
  have h : (lit "8=FIX.").map substSOH = lit "8=FIX." := by decide
  rw [replaceSOH_eq_map, replaceSOH_eq_map, List.map_append, h]

theorem sent_process (E : Extern) (flags : Flags) (g : Globals) (packet : Packet) :
    ∃ events, process E flags g packet = .ok events ∧
      sent events =
        if qualifies packet = true then
          [(g.graylogClient, E.ToJSON (recordOf flags packet))]
        else [] := by
  refine ⟨_, process_eq E flags g packet, ?_⟩
  by_cases hq : qualifies packet = true
  · simp [hq, sent_processFIXPayload, recordOf]
  · simp [hq, sent]

theorem qualifies_iff (packet : Packet) :
    qualifies packet = true ↔
      ∃ p, packet.ApplicationLayer = some p ∧ packet.CaptureInfo.Length > 32 ∧
        p.length > 8 ∧ lit "8=FIX." <+: p := by
  unfold qualifies
  cases packet.ApplicationLayer with
  | none => simp
  | some p => simp [and_assoc]

/-! ## The claims -/

/-- C1: for every byte sequence `m`, `replaceSOH m` has the same length as `m`, and at
every index `i < len(m)` the output byte is `0x7C` when `m[i] = 0x01` and is `m[i]`
otherwise. -/
theorem replaceSOH_length_and_bytes (m : List Byte) :
    (replaceSOH m).length = m.length ∧
    ∀ (i : Nat) (h : i < m.length),
      (replaceSOH m)[i]? = some (if m[i] = 0x01 then 0x7C else m[i]) := by
  rw [replaceSOH_eq_map]
  refine ⟨by simp, fun i h => ?_⟩
  have hsep : FIELD_SEPARATOR = 0x7C := by decide
  have hsoh : FIELD_SOH = 0x01 := rfl
  simp [List.getElem?_map, List.getElem?_eq_getElem h, substSOH, hsep, hsoh]

/-- Instance of C1 at the three bytes `8`, SOH, `F`, index 1. -/
theorem replaceSOH_length_and_bytes_witness :
    1 < (lit "8\x01F").length ∧ (replaceSOH (lit "8\x01F"))[1]? = some 0x7C :=
  ⟨by decide, (replaceSOH_length_and_bytes (lit "8\x01F")).2 1 (by decide)⟩


/-- C2: a frame whose total wire length is at most 32, or that has no application-layer
payload, or whose payload has at most 8 bytes, gives no event at all, whatever the
payload bytes are: nothing is printed, nothing is sent, and the outcome is not that of any
call of `processFIXPayload`. -/
theorem process_discards_short_frames (E : Extern) (flags : Flags) (g : Globals)
    (packet : Packet)
    (h : packet.CaptureInfo.Length ≤ 32 ∨ packet.ApplicationLayer = none ∨
      ∃ p, packet.ApplicationLayer = some p ∧ p.length ≤ 8) :
    process E flags g packet = .ok [] ∧
    ∀ (timestamp : Time) (payload : List Byte),
      process E flags g packet ≠ .ok (processFIXPayload E flags g timestamp payload) := by
  have h0 : process E flags g packet = .ok [] := by
    unfold process
    rcases h with h | h | ⟨p, hp, h8⟩
    · simp [not_lt.mpr h]
    · simp [h]
    · simp [hp, not_lt.mpr h8]
  refine ⟨h0, fun timestamp payload hc => ?_⟩
  rw [h0] at hc
  injection hc with hc
  exact processFIXPayload_ne_nil E flags g timestamp payload hc.symm

/-- Instance of C2 (scenario B): a frame of total length 30 carrying a FIX message. -/
theorem process_discards_short_frames_witness :
    (frame 30 (some (lit "8=FIX.4.2\x019=5\x0135=0\x01"))).CaptureInfo.Length ≤ 32 ∧
    process Extern.sample Flags.default Globals.init
      (frame 30 (some (lit "8=FIX.4.2\x019=5\x0135=0\x01"))) = .ok [] :=
  ⟨by decide,
   (process_discards_short_frames Extern.sample Flags.default Globals.init
      (frame 30 (some (lit "8=FIX.4.2\x019=5\x0135=0\x01"))) (Or.inl (by decide))).1⟩

/-- C3, as stated, fails: the eight-byte payload `8=FIX.42` begins with `8=FIX.`, yet a
frame of wire length 62 carrying it is discarded by the guard `len(payload) > 8`. -/
theorem process_header_alone_not_accepted :
    lit "8=FIX." <+: lit "8=FIX.42" ∧
    process Extern.sample Flags.default Globals.init (frame 62 (some (lit "8=FIX.42")))
      = .ok [] ∧
    process Extern.sample Flags.default Globals.init (frame 62 (some (lit "8=FIX.42")))
      ≠ .ok (processFIXPayload Extern.sample Flags.default Globals.init
              (frame 62 (some (lit "8=FIX.42"))).CaptureInfo.Timestamp (lit "8=FIX.42")) := by
  refine ⟨by decide, rfl, ?_⟩
  intro hc
  have h0 : process Extern.sample Flags.default Globals.init
      (frame 62 (some (lit "8=FIX.42"))) = .ok [] := rfl
  rw [h0] at hc
  injection hc with hc
  exact processFIXPayload_ne_nil _ _ _ _ _ hc.symm

/-- C3, amended: for a frame of total wire length above 32 whose payload has more than 8
bytes, if the first six bytes are `8=FIX.` then `process` hands the entire payload to
`processFIXPayload`, whatever bytes follow the sixth. -/
theorem process_accepts_header (E : Extern) (flags : Flags) (g : Globals)
    (timestamp : Time) (captureLength length : Int) (rest : List Byte)
    (hlen : length > 32) (h8 : (lit "8=FIX." ++ rest).length > 8) :
    process E flags g
        { CaptureInfo := { Timestamp := timestamp, CaptureLength := captureLength,
                           Length := length }
          ApplicationLayer := some (lit "8=FIX." ++ rest) }
      = .ok (processFIXPayload E flags g timestamp (lit "8=FIX." ++ rest)) :=
  process_of_header E flags g _ _ hlen rfl h8 ⟨rest, rfl⟩

/-- Instance of the amended C3: the header followed by three bytes that are not FIX text. -/
theorem process_accepts_header_witness :
    process Extern.sample Flags.default Globals.init
        { CaptureInfo := { Timestamp := ⟨0, 0⟩, CaptureLength := 63, Length := 63 }
          ApplicationLayer := some (lit "8=FIX." ++ [0, 255, 1]) }
      = .ok (processFIXPayload Extern.sample Flags.default Globals.init ⟨0, 0⟩
              (lit "8=FIX." ++ [0, 255, 1])) :=
  process_accepts_header Extern.sample Flags.default Globals.init ⟨0, 0⟩ 63 63 [0, 255, 1]
    (by decide) (by decide)

/-- C4: a frame whose payload differs from `8=FIX.` in at least one of its first six
bytes (a missing byte counts as different) gives no event, whatever the frame length and
the remaining bytes. -/
theorem process_rejects_other_header (E : Extern) (flags : Flags) (g : Globals)
    (packet : Packet) (p : List Byte) (hp : packet.ApplicationLayer = some p)
    (h : ∃ i, i < 6 ∧ p[i]? ≠ (lit "8=FIX.")[i]?) :
    process E flags g packet = .ok [] := by
  unfold process
  by_cases hlen : packet.CaptureInfo.Length > 32
  · by_cases h8 : p.length > 8
    · simp only [hlen, hp, h8, if_true, headerTest_of_mismatch p h8 h]
    · simp [hp, h8]
  · simp [hlen]

/-- Instance of C4 (scenario C): the payload `7=FIX.4.2<SOH>9=5<SOH>`, wrong at byte 0. -/
theorem process_rejects_other_header_witness :
    process Extern.sample Flags.default Globals.init
      (frame 100 (some (lit "7=FIX.4.2\x019=5\x01"))) = .ok [] :=
  process_rejects_other_header Extern.sample Flags.default Globals.init
    (frame 100 (some (lit "7=FIX.4.2\x019=5\x01"))) (lit "7=FIX.4.2\x019=5\x01") rfl
    ⟨0, by decide, by decide⟩


/-- C5: a frame of total wire length above 32 whose payload `p` has more than 8 bytes and
begins with `8=FIX.`, captured at time `T`, makes `process` ship exactly one record, the
JSON text of `{version: "1.1", host: server name, timestamp: floor(T), level: 3,
short_message: p with every 0x01 byte replaced by '|'}`; and for the payload of scenario A
the short message is `8=FIX.4.2|9=5|35=0|`. -/
theorem process_ships_one_record :
    (∀ (E : Extern) (flags : Flags) (g : Globals) (packet : Packet) (p : List Byte),
      packet.CaptureInfo.Length > 32 → packet.ApplicationLayer = some p →
      p.length > 8 → lit "8=FIX." <+: p →
      ∃ events, process E flags g packet = .ok events ∧
        sent events =
          [(g.graylogClient,
            E.ToJSON
              { Version := lit "1.1"
                Host := flags.serverName
                Timestamp := ⌊packet.CaptureInfo.Timestamp.toRat⌋
                Level := 3
                ShortMessage := p.map (fun b => if b = 0x01 then byte '|' else b) })]) ∧
    (lit "8=FIX.4.2\x019=5\x0135=0\x01").map (fun b => if b = 0x01 then byte '|' else b)
      = lit "8=FIX.4.2|9=5|35=0|" := by
  refine ⟨fun E flags g packet p hlen hp h8 hh => ?_, by decide⟩
  refine ⟨_, process_of_header E flags g packet p hlen hp h8 hh, ?_⟩
  rw [sent_processFIXPayload, replaceSOH_eq_map]
  have hf : substSOH = fun b => if b = 0x01 then byte '|' else b := by
    funext b
    simp [substSOH, FIELD_SOH, FIELD_SEPARATOR]
  simp [logPacket, Time.Unix, Time.floor_toRat, hf]

/-- Instance of C5 (scenario A): the frame of wire length 100 carrying
`8=FIX.4.2<SOH>9=5<SOH>35=0<SOH>`. -/
theorem process_ships_one_record_witness :
    ∃ events,
      process Extern.sample Flags.default Globals.init
        (frame 100 (some (lit "8=FIX.4.2\x019=5\x0135=0\x01"))) = .ok events ∧
      sent events =
        [(Globals.init.graylogClient,
          Extern.sample.ToJSON
            { Version := lit "1.1"
              Host := Flags.default.serverName
              Timestamp :=
                ⌊(frame 100 (some (lit "8=FIX.4.2\x019=5\x0135=0\x01"))).CaptureInfo.Timestamp.toRat⌋
              Level := 3
              ShortMessage := (lit "8=FIX.4.2\x019=5\x0135=0\x01").map
                (fun b => if b = 0x01 then byte '|' else b) })] :=
  process_ships_one_record.1 Extern.sample Flags.default Globals.init
    (frame 100 (some (lit "8=FIX.4.2\x019=5\x0135=0\x01")))
    (lit "8=FIX.4.2\x019=5\x0135=0\x01") (by decide) rfl (by decide) (by decide)

/-- C6: for every capture timestamp `T` and payload, the record built by `logPacket` has
`timestamp` equal to `T` cut down to whole seconds (the floor of `T`, the same for any two
instants that differ only in their sub-second part, and the Unix time of the instant with
that part set to zero), `host` equal to the configured server name whatever the payload,
`version` "1.1", `level` 3 and `short_message` equal to the payload bytes. -/
theorem logPacket_fields (flags : Flags) (T : Time) (payload : List Byte) :
    (logPacket flags T payload).Timestamp = ⌊T.toRat⌋ ∧
    (∀ nsec : Fin 1000000000,
      (logPacket flags { sec := T.sec, nsec := nsec } payload).Timestamp
        = (logPacket flags T payload).Timestamp) ∧
    ((logPacket flags T payload).Timestamp : ℚ) = Time.toRat { sec := T.sec, nsec := 0 } ∧
    (∀ other : List Byte, (logPacket flags T other).Host = flags.serverName) ∧
    (logPacket flags T payload).Version = lit "1.1" ∧
    (logPacket flags T payload).Level = 3 ∧
    (logPacket flags T payload).ShortMessage = payload := by
  refine ⟨?_, fun _ => rfl, ?_, fun _ => rfl, rfl, rfl, rfl⟩
  · rw [Time.floor_toRat]; rfl
  · simp [logPacket, Time.Unix, Time.toRat]



/-- C7: for every port-range option of the form `N-M`, with `N` and `M` decimal integers,
the filter built by `buildPcapFilter` contains `portrange N-M` and contains `greater 60`.
(The proof does not use that `N` and `M` are decimal: the option is copied as it is.) -/
theorem buildPcapFilter_contains_clauses (flags : Flags) (g : Globals) (N M : GoString)
    (_hN : isDecimal N = true) (_hM : isDecimal M = true)
    (h : flags.portRange = N ++ lit "-" ++ M) :
    lit "portrange " ++ N ++ lit "-" ++ M <:+: (buildPcapFilter flags g).1 ∧
    lit "greater 60" <:+: (buildPcapFilter flags g).1 := by
  have hne : flags.portRange ≠ [] := by
    rw [h]
    have : lit "-" = [byte '-'] := by decide
    simp [this]
  have h1 : lit "tcp and portrange " = lit "tcp and " ++ lit "portrange " := by decide
  have h2 : lit " and greater 60" = lit " and " ++ lit "greater 60" := by decide
  rw [buildPcapFilter_fst, if_neg hne, h]
  constructor
  · refine ⟨lit "tcp and ", lit " and greater 60", ?_⟩
    rw [h1]
    simp only [List.append_assoc]
  · refine ⟨lit "tcp and portrange " ++ (N ++ lit "-" ++ M) ++ lit " and ", [], ?_⟩
    rw [h2]
    simp only [List.append_assoc, List.append_nil]

/-- Instance of C7 (scenario D): the port range `9000-9100`. -/
theorem buildPcapFilter_contains_clauses_witness :
    lit "portrange " ++ lit "9000" ++ lit "-" ++ lit "9100" <:+:
      (buildPcapFilter { Flags.default with portRange := lit "9000-9100" } Globals.init).1 ∧
    lit "greater 60" <:+:
      (buildPcapFilter { Flags.default with portRange := lit "9000-9100" } Globals.init).1 :=
  buildPcapFilter_contains_clauses { Flags.default with portRange := lit "9000-9100" }
    Globals.init (lit "9000") (lit "9100") (by decide) (by decide) (by decide)

/-- C8, as stated, fails: the option `09000-9100` parses to the integers 9000 and 9100, but
the filter carries the option as typed; the clause `portrange 9000-9100` made of the
decimal forms of the parsed integers does not occur in it. -/
theorem buildPcapFilter_clause_is_not_parsed_integers :
    lit "09000-9100" ≠ [] ∧
    parsePortRange (lit "09000-9100") = (9000, 9100) ∧
    (buildPcapFilter { Flags.default with portRange := lit "09000-9100" } Globals.init).1
      = lit "tcp and portrange 09000-9100 and greater 60" ∧
    (buildPcapFilter { Flags.default with portRange := lit "09000-9100" } Globals.init).1
      ≠ lit "tcp and " ++ (lit "portrange " ++ Itoa 9000 ++ lit "-" ++ Itoa 9100)
          ++ lit " and greater 60" ∧
    ¬ (lit "portrange " ++ Itoa 9000 ++ lit "-" ++ Itoa 9100 <:+:
        (buildPcapFilter { Flags.default with portRange := lit "09000-9100" }
          Globals.init).1) := by
  decide

/-- C8, amended: for every supplied (non-empty) port-range option `s`, the port-range
clause that `buildPcapFilter` puts in the filter is `portrange ` followed by `s` itself,
verbatim; it consists of exactly the two parsed integers when `s` is the decimal form of
an integer `a`, `-`, and the decimal form of an integer `b` (with `0 ≤ a, b < 2^63`), and
for such `s` the parsed integers are `a` and `b`. -/
theorem buildPcapFilter_range_clause (flags : Flags) (g : Globals)
    (hs : flags.portRange ≠ []) :
    (buildPcapFilter flags g).1
      = lit "tcp and " ++ (lit "portrange " ++ flags.portRange) ++ lit " and greater 60" ∧
    ∀ a b : Nat, a < 2 ^ 63 → b < 2 ^ 63 →
      flags.portRange = Itoa (a : Int) ++ lit "-" ++ Itoa (b : Int) →
      parsePortRange flags.portRange = ((a : Int), (b : Int)) ∧
      (buildPcapFilter flags g).1
        = lit "tcp and " ++
            (lit "portrange " ++ Itoa (parsePortRange flags.portRange).1 ++ lit "-"
              ++ Itoa (parsePortRange flags.portRange).2)
            ++ lit " and greater 60" := by
  have h1 : lit "tcp and portrange " = lit "tcp and " ++ lit "portrange " := by decide
  have hf : (buildPcapFilter flags g).1
      = lit "tcp and " ++ (lit "portrange " ++ flags.portRange) ++ lit " and greater 60" := by
    rw [buildPcapFilter_fst, if_neg hs, h1]
    simp only [List.append_assoc]
  refine ⟨hf, fun a b ha hb hab => ?_⟩
  have hp : parsePortRange flags.portRange = ((a : Int), (b : Int)) := by
    rw [hab]
    exact parsePortRange_Itoa a b ha hb
  refine ⟨hp, ?_⟩
  rw [hf, hp]
  simp only [hab, List.append_assoc]

/-- Instance of the amended C8: the option `9000-9100`. -/
theorem buildPcapFilter_range_clause_witness :
    parsePortRange (lit "9000-9100") = (9000, 9100) ∧
    (buildPcapFilter { Flags.default with portRange := lit "9000-9100" } Globals.init).1
      = lit "tcp and " ++
          (lit "portrange " ++ Itoa (parsePortRange (lit "9000-9100")).1 ++ lit "-"
            ++ Itoa (parsePortRange (lit "9000-9100")).2)
          ++ lit " and greater 60" :=
  (buildPcapFilter_range_clause { Flags.default with portRange := lit "9000-9100" }
    Globals.init (by decide)).2 9000 9100 (by norm_num) (by norm_num) (by decide)

/-- C9, as stated, fails: the option `9000-x` does not parse as two integers, yet
`parsePortRange` returns `fromPort = 9000` (stored by `Sscanf` before the failure), not
zero-valued bounds. -/
theorem parsePortRange_keeps_first_integer :
    lit "9000-x" ≠ [] ∧
    (Sscanf (lit "9000-x") 0 0).err = true ∧
    (Sscanf (lit "9000-x") 0 0).n = 1 ∧
    parsePortRange (lit "9000-x") = (9000, 0) ∧
    ¬ ((parsePortRange (lit "9000-x")).1 = 0 ∧ (parsePortRange (lit "9000-x")).2 = 0) := by
  decide

/-- C9, amended: for every non-empty port-range option that fails to parse as two integers
in the form `%d-%d`, `parsePortRange` yields `toPort = 0`, and `fromPort = 0` unless the
leading integer was scanned before the failure, in which case `fromPort` is that integer.
So an option made of a decimal numeral `N` (below `2^63`) followed by nothing or by text
that begins with an ASCII character other than a digit gives `(N, 0)`, and an option that
begins with an ASCII character that is neither white space, a sign nor a digit gives
`(0, 0)`. `buildPcapFilter` has no error outcome, stores these bounds, and still emits the
range clause verbatim: it returns `"tcp and portrange " ++ s ++ " and greater 60"`. -/
theorem parsePortRange_on_failure (flags : Flags) (g : Globals)
    (hs : flags.portRange ≠ []) (herr : (Sscanf flags.portRange 0 0).err = true) :
    (parsePortRange flags.portRange).2 = 0 ∧
    (scanInt flags.portRange = none → (parsePortRange flags.portRange).1 = 0) ∧
    (∀ x rest, scanInt flags.portRange = some (x, rest) →
      (parsePortRange flags.portRange).1 = x) ∧
    (buildPcapFilter flags g).1
      = lit "tcp and portrange " ++ flags.portRange ++ lit " and greater 60" ∧
    (buildPcapFilter flags g).2
      = { g with fromPort := (parsePortRange flags.portRange).1, toPort := 0 } ∧
    (∀ N tail : List Byte, flags.portRange = N ++ tail → isDecimal N = true →
      decimalValue N < 2 ^ 63 → endsNumber tail = true →
      parsePortRange flags.portRange = ((decimalValue N : Int), 0)) ∧
    (startsNoInteger flags.portRange = true → parsePortRange flags.portRange = (0, 0)) := by
  have h2 : (parsePortRange flags.portRange).2 = 0 := by
    revert herr
    unfold parsePortRange Sscanf
    cases h1 : scanInt flags.portRange with
    | none => simp
    | some r =>
      obtain ⟨x, rest⟩ := r
      cases h2 : advanceLiteral '-' rest with
      | none => simp [h2]
      | some rest2 =>
        cases h3 : scanInt rest2 with
        | none => simp [h2, h3]
        | some r2 => simp [h2, h3]
  have h0 : scanInt flags.portRange = none → (parsePortRange flags.portRange).1 = 0 := by
    intro h0
    simp [parsePortRange, Sscanf, h0]
  have h1 : ∀ x rest, scanInt flags.portRange = some (x, rest) →
      (parsePortRange flags.portRange).1 = x := by
    intro x rest hx
    unfold parsePortRange Sscanf
    rw [hx]
    cases h2 : advanceLiteral '-' rest with
    | none => simp [h2]
    | some rest2 =>
      cases h3 : scanInt rest2 with
      | none => simp [h2, h3]
      | some r2 => simp [h2, h3]
  refine ⟨h2, h0, h1, ?_, ?_, ?_, ?_⟩
  · rw [buildPcapFilter_fst, if_neg hs]
  · rw [buildPcapFilter_snd flags g hs, h2]
  · intro N tail hNt hN hv htail
    have hscan := scanInt_decimal N tail hN htail hv
    rw [← hNt] at hscan
    exact Prod.ext (h1 _ _ hscan) h2
  · intro hstart
    exact Prod.ext (h0 (scanInt_of_startsNoInteger _ hstart)) h2

/-- Instances of the amended C9: the option `9000-x` gives `(9000, 0)`, the option
`9_000-9100` gives `(9, 0)`, the option `x9000-9100` gives `(0, 0)`, and the filter for
`9000-x` carries the option verbatim. -/
theorem parsePortRange_on_failure_witness :
    (decimalValue (lit "9000") = 9000 ∧
      parsePortRange (lit "9000-x") = ((decimalValue (lit "9000") : Int), 0)) ∧
    (decimalValue (lit "9") = 9 ∧
      parsePortRange (lit "9_000-9100") = ((decimalValue (lit "9") : Int), 0)) ∧
    parsePortRange (lit "x9000-9100") = (0, 0) ∧
    (parsePortRange (lit "9000-x")).2 = 0 ∧
    (buildPcapFilter { Flags.default with portRange := lit "9000-x" } Globals.init).1
      = lit "tcp and portrange " ++ lit "9000-x" ++ lit " and greater 60" :=
  ⟨⟨by decide,
    (parsePortRange_on_failure { Flags.default with portRange := lit "9000-x" } Globals.init
      (by decide) (by decide)).2.2.2.2.2.1 (lit "9000") (lit "-x") (by decide) (by decide)
      (by decide) (by decide)⟩,
   ⟨by decide,
    (parsePortRange_on_failure { Flags.default with portRange := lit "9_000-9100" }
      Globals.init (by decide) (by decide)).2.2.2.2.2.1 (lit "9") (lit "_000-9100")
      (by decide) (by decide) (by decide) (by decide)⟩,
   (parsePortRange_on_failure { Flags.default with portRange := lit "x9000-9100" }
      Globals.init (by decide) (by decide)).2.2.2.2.2.2 (by decide),
   (parsePortRange_on_failure { Flags.default with portRange := lit "9000-x" } Globals.init
      (by decide) (by decide)).1,
   (parsePortRange_on_failure { Flags.default with portRange := lit "9000-x" } Globals.init
      (by decide) (by decide)).2.2.2.1⟩

/-- C10: the filter returned by `buildPcapFilter` is exactly `tcp and greater 60` when the
port-range option is empty and exactly `"tcp and portrange " ++ s ++ " and greater 60"`
when the option is a non-empty string `s`; in every configuration it starts with `tcp`
and ends with ` and greater 60`. -/
theorem buildPcapFilter_shape (flags : Flags) (g : Globals) :
    (flags.portRange = [] → (buildPcapFilter flags g).1 = lit "tcp and greater 60") ∧
    (flags.portRange ≠ [] →
      (buildPcapFilter flags g).1
        = lit "tcp and portrange " ++ flags.portRange ++ lit " and greater 60") ∧
    lit "tcp" <+: (buildPcapFilter flags g).1 ∧
    lit " and greater 60" <:+ (buildPcapFilter flags g).1 := by
  have h1 : lit "tcp and greater 60" = lit "tcp" ++ lit " and greater 60" := by decide
  have h2 : lit "tcp and portrange " = lit "tcp" ++ lit " and portrange " := by decide
  rw [buildPcapFilter_fst]
  refine ⟨fun h => if_pos h, fun h => if_neg h, ?_, ?_⟩
  · by_cases hs : flags.portRange = []
    · rw [if_pos hs, h1]
      exact List.prefix_append _ _
    · rw [if_neg hs, h2]
      simp only [List.append_assoc]
      exact List.prefix_append _ _
  · by_cases hs : flags.portRange = []
    · rw [if_pos hs, h1]
      exact List.suffix_append _ _
    · rw [if_neg hs]
      exact List.suffix_append _ _

/-- Instance of C10: no port range (the default), and the port range `9000-9100`. -/
theorem buildPcapFilter_shape_witness :
    (buildPcapFilter Flags.default Globals.init).1 = lit "tcp and greater 60" ∧
    (buildPcapFilter { Flags.default with portRange := lit "9000-9100" } Globals.init).1
      = lit "tcp and portrange " ++ lit "9000-9100" ++ lit " and greater 60" :=
  ⟨(buildPcapFilter_shape Flags.default Globals.init).1 (by decide),
   (buildPcapFilter_shape { Flags.default with portRange := lit "9000-9100" }
      Globals.init).2.1 (by decide)⟩


/-- C11: the `skip-heartbeats` switch is inert. For every frame and configuration the
outcome of `process` (the record shipped, or none) is the same with the switch on as with
it off; in particular a qualifying frame whose payload contains `35=0` (a heartbeat) is
shipped like any other when the switch is on. -/
theorem skipHeartbeats_inert :
    (∀ (E : Extern) (flags : Flags) (g : Globals) (packet : Packet),
      process E { flags with skipHeartbeats := true } g packet
        = process E { flags with skipHeartbeats := false } g packet) ∧
    (∀ (E : Extern) (flags : Flags) (g : Globals) (packet : Packet) (p : List Byte),
      flags.skipHeartbeats = true → packet.ApplicationLayer = some p →
      lit "35=0" <:+: p → qualifies packet = true →
      ∃ events, process E flags g packet = .ok events ∧
        sent events = [(g.graylogClient, E.ToJSON (recordOf flags packet))]) := by
  refine ⟨fun E flags g packet => rfl, fun E flags g packet p _ _ _ hq => ?_⟩
  refine ⟨_, process_eq E flags g packet, ?_⟩
  simp [hq, sent_processFIXPayload, recordOf]

/-- Instance of C11: the heartbeat of scenario A, with the default flags, under which
`skip-heartbeats` is on. -/
theorem skipHeartbeats_inert_witness :
    Flags.default.skipHeartbeats = true ∧ lit "35=0" <:+: heartbeat ∧
    ∃ events,
      process Extern.sample Flags.default Globals.init (frame 100 (some heartbeat))
        = .ok events ∧
      sent events =
        [(Globals.init.graylogClient,
          Extern.sample.ToJSON (recordOf Flags.default (frame 100 (some heartbeat))))] :=
  ⟨rfl, by decide,
   skipHeartbeats_inert.2 Extern.sample Flags.default Globals.init
     (frame 100 (some heartbeat)) heartbeat rfl rfl (by decide) (by decide)⟩

/-- C12 does not hold of the code. In every run of `main`, each `Send` is called on the
package-level `graylogClient`, which nothing assigns and which therefore holds the zero
value of `client.Gelf`; the client that `capture` builds from `graylog-host` and
`graylog-port` is a local variable that is only closed. With the default flags and the
frame of scenario A the one record goes to the zero client, which is not the client
configured for `localhost:9001`. -/
theorem send_uses_unconfigured_client :
    (∀ (E : Extern) (flags : Flags) (packets : List Packet) (run : List Event × Exit),
      main E flags (Session.live packets) = some run →
      ∀ r ∈ sent run.1, r.1 = Gelf.zero) ∧
    (main Extern.sample Flags.default (Session.live [frame 100 (some heartbeat)])).map
        (fun run => sent run.1)
      = some [(Gelf.zero, lit "short_message=8=FIX.4.2|9=5|35=0|")] ∧
    capture.graylogClient Flags.default
      = { GraylogHost := lit "localhost", GraylogPort := 9001 } ∧
    capture.graylogClient Flags.default ≠ Gelf.zero := by
  refine ⟨fun E flags packets run hrun r hr => ?_, by decide, by decide, by decide⟩
  unfold main at hrun
  split at hrun
  · exact absurd hrun (by simp)
  · simp only [Option.some.injEq] at hrun
    rw [← hrun, (sent_capture_live E flags _ _ packets).2, sent_captureLoop,
      buildPcapFilter_graylogClient] at hr
    simp only [List.mem_map] at hr
    obtain ⟨packet, _, rfl⟩ := hr
    rfl

/-- C14: the normalization is irreversible. The payloads `8=FIX.4.2<SOH>58=a|b<SOH>` and
`8=FIX.4.2<SOH>58=a<SOH>b<SOH>` differ (one has a literal `|` where the other has the byte
0x01) and have the same normalized form, so `replaceSOH` is not injective and no function
recovers every payload from its normalized form. -/
theorem replaceSOH_not_injective :
    lit "8=FIX.4.2\x0158=a|b\x01" ≠ lit "8=FIX.4.2\x0158=a\x01b\x01" ∧
    replaceSOH (lit "8=FIX.4.2\x0158=a|b\x01")
      = replaceSOH (lit "8=FIX.4.2\x0158=a\x01b\x01") ∧
    ¬ Function.Injective replaceSOH ∧
    ¬ ∃ recover : List Byte → List Byte, ∀ m, recover (replaceSOH m) = m := by
  have hne : lit "8=FIX.4.2\x0158=a|b\x01" ≠ lit "8=FIX.4.2\x0158=a\x01b\x01" := by decide
  have heq : replaceSOH (lit "8=FIX.4.2\x0158=a|b\x01")
      = replaceSOH (lit "8=FIX.4.2\x0158=a\x01b\x01") := by decide
  refine ⟨hne, heq, fun hinj => hne (hinj heq), ?_⟩
  rintro ⟨recover, hrec⟩
  apply hne
  rw [← hrec (lit "8=FIX.4.2\x0158=a|b\x01"), heq, hrec]

/-- C15: for every finite sequence of frames the capture loop ends without a panic and the
records it ships are, in the same order, the records of exactly the frames that qualify
(wire length above 32, payload present and longer than 8 bytes, beginning with `8=FIX.`).
Each frame gives at most one record, each qualifying frame exactly one, and what a frame
contributes does not depend on the frames before it. -/
theorem captureLoop_ships_qualifying_frames (E : Extern) (flags : Flags) (g : Globals)
    (packets : List Packet) :
    (captureLoop E flags g packets).2 = none ∧
    sent (captureLoop E flags g packets).1
      = (packets.filter (fun packet => qualifies packet)).map
          (fun packet => (g.graylogClient, E.ToJSON (recordOf flags packet))) ∧
    (∀ packet : Packet, ∃ events, process E flags g packet = .ok events ∧
      (sent events).length ≤ 1 ∧
      (qualifies packet = true →
        sent events = [(g.graylogClient, E.ToJSON (recordOf flags packet))]) ∧
      (qualifies packet = false → sent events = [])) ∧
    (∀ before after : List Packet,
      sent (captureLoop E flags g (before ++ after)).1
        = sent (captureLoop E flags g before).1 ++ sent (captureLoop E flags g after).1) := by
  refine ⟨by rw [captureLoop_eq], sent_captureLoop E flags g packets, fun packet => ?_,
    fun before after => ?_⟩
  · obtain ⟨events, hev, hs⟩ := sent_process E flags g packet
    refine ⟨events, hev, ?_, fun hq => by rw [hs, if_pos hq], fun hq => by simp [hs, hq]⟩
    rw [hs]
    split <;> simp
  · simp only [sent_captureLoop, List.filter_append, List.map_append]

/-- Instance of C15: a frame that is too short, the heartbeat of scenario A, a frame with
the wrong header, then the heartbeat again; the loop ships the heartbeat record twice. -/
theorem captureLoop_ships_qualifying_frames_witness :
    qualifies (frame 100 (some heartbeat)) = true ∧
    sent (captureLoop Extern.sample Flags.default Globals.init
        [frame 30 (some heartbeat), frame 100 (some heartbeat),
         frame 100 (some (lit "7=FIX.4.2\x019=5\x01")), frame 100 (some heartbeat)]).1
      = ([frame 30 (some heartbeat), frame 100 (some heartbeat),
          frame 100 (some (lit "7=FIX.4.2\x019=5\x01")), frame 100 (some heartbeat)].filter
            (fun packet => qualifies packet)).map
          (fun packet => (Globals.init.graylogClient,
            Extern.sample.ToJSON (recordOf Flags.default packet))) :=
  ⟨by decide,
   (captureLoop_ships_qualifying_frames Extern.sample Flags.default Globals.init
      [frame 30 (some heartbeat), frame 100 (some heartbeat),
       frame 100 (some (lit "7=FIX.4.2\x019=5\x01")), frame 100 (some heartbeat)]).2.1⟩

/-- C16: `process` is total. For every frame, also one whose payload is nil, empty or 1 to
8 bytes long, it ends without a panic: the index reads `payload[0]` .. `payload[5]` of the
header test are evaluated only for a payload of more than 8 bytes, where each is in range.
(On its own the header test does go out of range on a shorter payload, as the last part
shows for the empty one: the guard is what keeps that branch from being reached.) -/
theorem process_total :
    (∀ (E : Extern) (flags : Flags) (g : Globals) (packet : Packet),
      ∃ events, process E flags g packet = .ok events) ∧
    (∀ p : List Byte, p.length > 8 → ∃ b, headerTest p = .ok b) ∧
    (∀ (E : Extern) (flags : Flags) (g : Globals) (info : CaptureInfo) (p : List Byte),
      p.length ≤ 8 →
      process E flags g { CaptureInfo := info, ApplicationLayer := some p } = .ok []) ∧
    headerTest [] = .error (Panic.indexOutOfRange 0 0) := by
  refine ⟨fun E flags g packet => ⟨_, process_eq E flags g packet⟩,
    fun p hp => ⟨_, headerTest_eq_decide p hp⟩, fun E flags g info p hp => ?_, rfl⟩
  rw [process_eq]
  have hq : qualifies { CaptureInfo := info, ApplicationLayer := some p } = false := by
    simp [qualifies, Nat.not_lt.mpr hp]
  simp [hq]

/-- Instance of C16: the empty payload and a nine-byte payload. -/
theorem process_total_witness :
    process Extern.sample Flags.default Globals.init (frame 100 (some [])) = .ok [] ∧
    ∃ b, headerTest (lit "8=FIX.4.2") = .ok b :=
  ⟨process_total.2.2.1 Extern.sample Flags.default Globals.init
      (frame 100 (some [])).CaptureInfo [] (by decide),
   process_total.2.1 (lit "8=FIX.4.2") (by decide)⟩


/-- C17: for every byte sequence `m`, `replaceSOH m` contains no 0x01 byte; hence every
record that `process` ships is the JSON text of a record (the record of the frame) whose
`short_message` contains no SOH byte. -/
theorem replaceSOH_leaves_no_SOH :
    (∀ m : List Byte, (0x01 : Byte) ∉ replaceSOH m) ∧
    (∀ (E : Extern) (flags : Flags) (g : Globals) (packet : Packet) (events : List Event),
      process E flags g packet = .ok events →
      ∀ r ∈ sent events, r.2 = E.ToJSON (recordOf flags packet) ∧
        (0x01 : Byte) ∉ (recordOf flags packet).ShortMessage) := by
  have h1 : ∀ m : List Byte, (0x01 : Byte) ∉ replaceSOH m := by
    intro m hm
    rw [replaceSOH_eq_map, List.mem_map] at hm
    obtain ⟨b, _, hb⟩ := hm
    exact substSOH_ne_SOH b hb
  refine ⟨h1, fun E flags g packet events hev r hr => ?_⟩
  obtain ⟨events2, hev2, hs⟩ := sent_process E flags g packet
  rw [hev] at hev2
  injection hev2 with hev2
  subst hev2
  rw [hs] at hr
  split at hr
  · simp only [List.mem_singleton] at hr
    subst hr
    exact ⟨rfl, h1 _⟩
  · simp at hr

/-- Instance of C17: the record shipped for the heartbeat of scenario A. -/
theorem replaceSOH_leaves_no_SOH_witness :
    (0x01 : Byte) ∈ heartbeat ∧
    (0x01 : Byte) ∉ (recordOf Flags.default (frame 100 (some heartbeat))).ShortMessage :=
  ⟨by decide,
   (replaceSOH_leaves_no_SOH.2 Extern.sample Flags.default Globals.init
      (frame 100 (some heartbeat))
      (processFIXPayload Extern.sample Flags.default Globals.init
        (frame 100 (some heartbeat)).CaptureInfo.Timestamp heartbeat)
      rfl
      (Globals.init.graylogClient,
        Extern.sample.ToJSON (recordOf Flags.default (frame 100 (some heartbeat))))
      (by decide)).2⟩

/-- C18: `replaceSOH` is idempotent: `replaceSOH (replaceSOH m) = replaceSOH m` for every
byte sequence `m`. -/
theorem replaceSOH_idempotent (m : List Byte) :
    replaceSOH (replaceSOH m) = replaceSOH m := by
  rw [replaceSOH_eq_map, replaceSOH_eq_map, List.map_map]
  apply List.map_congr_left
  intro b _
  exact substSOH_idem b

/-- C19: normalization preserves the envelope. For every payload the classifier accepts
(more than 8 bytes, beginning with `8=FIX.`) the normalized payload still has more than 8
bytes and still begins with `8=FIX.`; so the `short_message` of every record that
`process` ships begins with `8=FIX.`. -/
theorem replaceSOH_preserves_envelope :
    (∀ p : List Byte, p.length > 8 → lit "8=FIX." <+: p →
      (replaceSOH p).length > 8 ∧ lit "8=FIX." <+: replaceSOH p) ∧
    (∀ (E : Extern) (flags : Flags) (g : Globals) (packet : Packet) (events : List Event),
      process E flags g packet = .ok events →
      ∀ r ∈ sent events, r.2 = E.ToJSON (recordOf flags packet) ∧
        lit "8=FIX." <+: (recordOf flags packet).ShortMessage) := by
  have h1 : ∀ p : List Byte, p.length > 8 → lit "8=FIX." <+: p →
      (replaceSOH p).length > 8 ∧ lit "8=FIX." <+: replaceSOH p := by
    intro p h8 hh
    obtain ⟨rest, rfl⟩ := hh
    refine ⟨?_, ?_⟩
    · rw [replaceSOH_eq_map, List.length_map]
      exact h8
    · rw [replaceSOH_header]
      exact List.prefix_append _ _
  refine ⟨h1, fun E flags g packet events hev r hr => ?_⟩
  obtain ⟨events2, hev2, hs⟩ := sent_process E flags g packet
  rw [hev] at hev2
  injection hev2 with hev2
  subst hev2
  rw [hs] at hr
  split at hr
  · rename_i hq
    simp only [List.mem_singleton] at hr
    subst hr
    refine ⟨rfl, ?_⟩
    obtain ⟨p, hp, _, h8, hh⟩ := (qualifies_iff packet).mp hq
    simp only [recordOf, logPacket, hp, Option.getD_some]
    exact (h1 p h8 hh).2
  · simp at hr

/-- Instance of C19: the heartbeat of scenario A and the record shipped for it. -/
theorem replaceSOH_preserves_envelope_witness :
    (replaceSOH heartbeat).length > 8 ∧ lit "8=FIX." <+: replaceSOH heartbeat :=
  replaceSOH_preserves_envelope.1 heartbeat (by decide) (by decide)

end Pcap2Graylog
